import Mathlib

/-!
Shallow embedding of the filter-tree matching engine of `usdb_syncer`
(`src/usdb_syncer/gui/search_tree/item.py`) together with the song record
(`src/usdb_syncer/usdb_song.py`), and proofs about its state machine and
predicates.
-/

set_option maxHeartbeats 1000000

namespace UsdbSyncer

/-- Meta data about a song that USDB shows in the result list
(`usdb_song.py`, class `UsdbSong`): rating is the number of stars scraped
from the page (`rating.count("star.png")`), hence a non-negative integer. -/
structure UsdbSong where
  song_id : Nat
  artist : String
  title : String
  language : String
  edition : String
  golden_notes : Bool
  rating : Nat
  views : Nat
deriving DecidableEq

/-- Modelled from the spec: class `SongData` (module `usdb_syncer.song_data`,
not among the given sources) wraps the scraped song record, which the filter
tree reads through its `data` attribute; per the spec the record has immutable
fields artist, title, edition, language, golden_notes, rating (integer 0..5)
and views (non-negative integer). -/
structure SongData where
  data : UsdbSong
deriving DecidableEq

/-- Kinds of filters in the tree (`item.py`, enum `Filter`). -/
inductive Filter where
  | ARTIST
  | TITLE
  | EDITION
  | LANGUAGE
  | GOLDEN_NOTES
  | RATING
  | VIEWS
deriving DecidableEq

/-- Selectable variants for the song rating filter (`item.py`, enum
`RatingVariant`). -/
inductive RatingVariant where
  | R_NONE
  | R_1
  | R_2
  | R_3
  | R_4
  | R_5
deriving DecidableEq

/-- The underlying enum member value of a `RatingVariant`: Python `None` for
`R_NONE` (modelled as `none`), otherwise the integer level. -/
def RatingVariant.value : RatingVariant → Option Nat
  | .R_NONE => none
  | .R_1 => some 1
  | .R_2 => some 2
  | .R_3 => some 3
  | .R_4 => some 4
  | .R_5 => some 5

/-- Embeds `RatingVariant.matches_song`: `self.value == song.data.rating`.
The song's rating is an integer, so comparing the Python `None` member value
against it is `False` for every song. -/
def RatingVariant.matches_song (r : RatingVariant) (song : SongData) : Bool :=
  r.value = some song.data.rating

/-- Selectable variants for the golden notes filter (`item.py`, enum
`GoldenNotesVariant`). -/
inductive GoldenNotesVariant where
  | NO
  | YES
deriving DecidableEq

/-- The underlying enum member value of a `GoldenNotesVariant`. -/
def GoldenNotesVariant.value : GoldenNotesVariant → Bool
  | .NO => false
  | .YES => true

/-- Embeds `GoldenNotesVariant.matches_song`:
`self.value is song.data.golden_notes`. -/
def GoldenNotesVariant.matches_song (g : GoldenNotesVariant) (song : SongData) : Bool :=
  g.value = song.data.golden_notes

/-- Selectable variants for the views filter (`item.py`, enum `ViewsVariant`):
half-open buckets `(lo, hi)` with `hi` possibly `None` (unbounded). -/
inductive ViewsVariant where
  | V_0
  | V_100
  | V_200
  | V_300
  | V_400
  | V_500
deriving DecidableEq

/-- The underlying enum member value of a `ViewsVariant`. -/
def ViewsVariant.value : ViewsVariant → Nat × Option Nat
  | .V_0 => (0, some 100)
  | .V_100 => (100, some 200)
  | .V_200 => (200, some 300)
  | .V_300 => (300, some 400)
  | .V_400 => (400, some 500)
  | .V_500 => (500, none)

/-- Embeds `ViewsVariant.matches_song`:
`self.value[0] <= song.data.views and (self.value[1] is None or song.data.views < self.value[1])`. -/
def ViewsVariant.matches_song (v : ViewsVariant) (song : SongData) : Bool :=
  decide (v.value.1 ≤ song.data.views) &&
    (match v.value.2 with
     | none => true
     | some hi => decide (song.data.views < hi))

/-- The concrete `SongMatch` implementations of `item.py` as a closed sum:
the four string matchers plus the three static variant enums. -/
inductive SongMatch where
  | artist (s : String)
  | title (s : String)
  | edition (s : String)
  | language (s : String)
  | golden_notes (g : GoldenNotesVariant)
  | rating (r : RatingVariant)
  | views (v : ViewsVariant)
deriving DecidableEq

/-- Dispatch of `matches_song` over the concrete `SongMatch` kinds; the string
matchers compare for equality with the corresponding song field. -/
def SongMatch.matches_song : SongMatch → SongData → Bool
  | .artist a, song => a = song.data.artist
  | .title t, song => t = song.data.title
  | .edition e, song => e = song.data.edition
  | .language l, song => l = song.data.language
  | .golden_notes g, song => g.matches_song song
  | .rating r, song => r.matches_song song
  | .views v, song => v.matches_song song

/-- A node row representing one variant of a specific filter (`item.py`,
class `VariantItem`). Its `row_in_parent` is its position in the parent's
`children` tuple and is kept implicit as the list index; variants have no
children of their own. -/
structure VariantItem where
  data : SongMatch
  checked : Bool
  checkable : Bool
deriving DecidableEq

/-- Embeds `VariantItem.accepts_song`: delegate to the predicate. -/
def VariantItem.accepts_song (v : VariantItem) (song : SongData) : Bool :=
  v.data.matches_song song

/-- Embeds `VariantItem.is_checkable`: always true. -/
def VariantItem.is_checkable (_v : VariantItem) : Bool :=
  true

/-- A top-level row in the tree representing a filter kind (`item.py`,
class `FilterItem`). `children` is the tuple of variant rows and
`checked_children` the set of checked child indices. -/
structure FilterItem where
  data : Filter
  children : List VariantItem
  checked_children : Finset Nat
  checked : Bool
  checkable : Bool
deriving DecidableEq

/-- Embeds `FilterItem.add_child`: append a fresh variant row (checked false,
checkable true per the attrs field defaults); its `row_in_parent` is the
child count before insertion, i.e. its list index. -/
def FilterItem.add_child (f : FilterItem) (m : SongMatch) : FilterItem :=
  { f with children := f.children ++ [⟨m, false, true⟩] }

/-- Embeds `FilterItem.is_checkable`: `bool(self.checked_children)`. -/
def FilterItem.is_checkable (f : FilterItem) : Bool :=
  f.checked_children ≠ ∅

/-- Embeds `FilterItem.uncheck_children`: clear every child's checked flag,
empty the set, and clear the filter's checkable and checked flags. -/
def FilterItem.uncheck_children (f : FilterItem) : FilterItem :=
  { f with
    children := f.children.map fun c => { c with checked := false }
    checked_children := ∅
    checkable := false
    checked := false }

/-- Embeds `FilterItem.check_child`: `uncheck_children`, add the index to the
set, then set the filter's `checkable` and `checked` flags and the child's
`checked` flag. The subscript `self.children[child]` raises for an
out-of-bounds index, modelled by `none`. -/
def FilterItem.check_child (f : FilterItem) (child : Nat) : Option FilterItem :=
  if h : child < (f.uncheck_children).children.length then
    some { f.uncheck_children with
      checked_children := insert child (f.uncheck_children).checked_children
      checkable := true
      checked := true
      children := (f.uncheck_children).children.set child
        { (f.uncheck_children).children.get ⟨child, h⟩ with checked := true } }
  else none

/-- Embeds `FilterItem.toggle_checked`: uncheck all children when the filter's
own checked flag is set, otherwise do nothing. -/
def FilterItem.toggle_checked (f : FilterItem) : FilterItem :=
  if f.checked then f.uncheck_children else f

/-- Embeds the generator subterm of `FilterItem.accepts_song`:
`self.children[i].accepts_song(song)`, `false` standing in for an index that
has no child (the surrounding definition answers `none` in that case). -/
def FilterItem.child_accepts (f : FilterItem) (song : SongData) (i : Nat) : Bool :=
  match f.children.get? i with
  | some c => c.accepts_song song
  | none => false

/-- Embeds `FilterItem.accepts_song`: true when no child is checked, otherwise
the disjunction of `accepts_song` over the children at the checked indices.
A checked index with no corresponding child makes the subscript raise,
modelled by `none`. -/
def FilterItem.accepts_song (f : FilterItem) (song : SongData) : Option Bool :=
  if f.checked_children = ∅ then some true
  else if f.checked_children ⊆ Finset.range f.children.length then
    some (decide (∃ i ∈ f.checked_children, f.child_accepts song i = true))
  else none

/-- Embeds `VariantItem.toggle_checked`, acting on the parent filter and the
variant's `row_in_parent`: uncheck all siblings when the variant is checked,
otherwise make it the sole checked child. `none` when no variant sits at the
given row. -/
def VariantItem.toggle_checked (parent : FilterItem) (row : Nat) : Option FilterItem :=
  match parent.children.get? row with
  | none => none
  | some c => if c.checked then some parent.uncheck_children else parent.check_child row

/-- The root item of the tree (`item.py`, class `RootItem`): its children are
the filter rows, in catalog order. -/
structure RootItem where
  children : List FilterItem
deriving DecidableEq

/-- One user toggle addressed at a filter row: either the filter-level
checkbox itself or the checkbox of the variant at the given row. -/
inductive Op where
  | filter : Op
  | variant (row : Nat) : Op
deriving DecidableEq

/-- Apply one toggle to a filter row. -/
def applyOp (f : FilterItem) : Op → Option FilterItem
  | .filter => some f.toggle_checked
  | .variant row => VariantItem.toggle_checked f row

/-- Apply a sequence of toggles to a filter row. -/
def runOps (f : FilterItem) : List Op → Option FilterItem
  | [] => some f
  | op :: ops => (applyOp f op).bind fun f1 => runOps f1 ops

/-- A freshly built filter row: the state produced at tree-build time for one
filter kind by appending one variant row per predicate via `add_child`, all
check state at its attrs defaults. -/
def buildFilter (kind : Filter) (ms : List SongMatch) : FilterItem :=
  ms.foldl FilterItem.add_child
    { data := kind, children := [], checked_children := ∅, checked := false, checkable := false }

/-- The states of one filter row reachable from some freshly built row by a
sequence of toggle calls. -/
def Reachable (f : FilterItem) : Prop :=
  ∃ kind ms ops, runOps (buildFilter kind ms) ops = some f

/-- The per-filter well-formedness invariant: at most one checked child; the
`checked` and `checkable` flags derived from the set; every child's `checked`
flag consistent with membership of its row in the set; members in bounds. -/
def Inv (f : FilterItem) : Prop :=
  f.checked_children.card ≤ 1 ∧
  (f.checked = true ↔ f.checked_children ≠ ∅) ∧
  f.checkable = f.checked ∧
  (∀ i, ∀ c ∈ f.children.get? i, (c.checked = true ↔ i ∈ f.checked_children)) ∧
  (∀ i ∈ f.checked_children, i < f.children.length)

/-- Toggling one addressed filter row of the whole tree, leaving the list of
rows otherwise in place. -/
def treeToggle (root : RootItem) (fIdx : Nat) (op : Op) : Option RootItem :=
  match root.children.get? fIdx with
  | none => none
  | some f => (applyOp f op).map fun f1 => { root with children := root.children.set fIdx f1 }

/-- A song record used for concrete evaluations, with the given views count. -/
def viewsSong (views : Nat) : SongData :=
  ⟨⟨1, "a", "t", "l", "e", false, 3, views⟩⟩

/-- A song record used for concrete evaluations, with the given rating. -/
def ratingSong (rating : Nat) : SongData :=
  ⟨⟨1, "a", "t", "l", "e", false, rating, 0⟩⟩

/-- A freshly built rating filter row with two variant rows, used as a concrete
state in evaluations. -/
def sampleFilter : FilterItem :=
  buildFilter Filter.RATING
    [SongMatch.rating RatingVariant.R_1, SongMatch.rating RatingVariant.R_2]

/-- The state of `sampleFilter` after its first variant has been checked. -/
def sampleChecked : FilterItem :=
  { data := Filter.RATING
    children := [⟨SongMatch.rating RatingVariant.R_1, true, true⟩,
                 ⟨SongMatch.rating RatingVariant.R_2, false, true⟩]
    checked_children := {0}
    checked := true
    checkable := true }

end UsdbSyncer

namespace UsdbSyncer

/-- Folding `add_child` over a list of predicates appends one fresh variant row
per predicate and leaves every other field in place. -/
lemma foldl_add_child (ms : List SongMatch) (f : FilterItem) :
    ms.foldl FilterItem.add_child f =
      { f with children := f.children ++ ms.map fun m => ⟨m, false, true⟩ } := by
  induction ms generalizing f with
  | nil => simp
  | cons m ms ih =>
      simp only [List.foldl_cons, ih, FilterItem.add_child, List.map_cons]
      simp

/-- Characterization of a freshly built filter row. -/
lemma buildFilter_eq (kind : Filter) (ms : List SongMatch) :
    buildFilter kind ms =
      { data := kind, children := ms.map fun m => ⟨m, false, true⟩,
        checked_children := ∅, checked := false, checkable := false } := by
  simp [buildFilter, foldl_add_child]

/-- After `uncheck_children` every child is its old self with `checked` cleared. -/
lemma uncheck_children_get? (f : FilterItem) (j : Nat) :
    (f.uncheck_children).children.get? j =
      (f.children.get? j).map fun c => { c with checked := false } := by
  simp [FilterItem.uncheck_children, List.get?_eq_getElem?, List.getElem?_map]

/-- The `uncheck_children` operation keeps the number of children. -/
lemma uncheck_children_length (f : FilterItem) :
    (f.uncheck_children).children.length = f.children.length := by
  simp [FilterItem.uncheck_children]

/-- Characterization of `check_child` at an in-bounds index: it succeeds, the
set becomes the singleton of the index, the flags are set, and each child keeps
its data while its `checked` flag records whether it is the chosen one. -/
lemma check_child_spec (f : FilterItem) (i : Nat) (hi : i < f.children.length) :
    ∃ f', f.check_child i = some f' ∧
      f'.data = f.data ∧
      f'.checked_children = {i} ∧
      f'.checked = true ∧ f'.checkable = true ∧
      f'.children.length = f.children.length ∧
      ∀ j, f'.children.get? j =
        (f.children.get? j).map fun c => { c with checked := decide (j = i) } := by
  have hlen : i < (f.uncheck_children).children.length := by
    simpa [uncheck_children_length] using hi
  unfold FilterItem.check_child
  rw [dif_pos hlen]
  refine ⟨_, rfl, rfl, by simp [FilterItem.uncheck_children], rfl, rfl, by simp [FilterItem.uncheck_children], ?_⟩
  intro j
  rcases eq_or_ne j i with rfl | hne
  · rw [List.get?_eq_getElem?, List.getElem?_set_self hlen]
    rw [List.get?_eq_getElem?, List.getElem?_eq_getElem hi]
    have : (f.uncheck_children).children.get ⟨j, hlen⟩ =
        { f.children.get ⟨j, hi⟩ with checked := false } := by
      simp [FilterItem.uncheck_children]
    rw [this]
    simp
  · rw [List.get?_eq_getElem?, List.getElem?_set_ne (Ne.symm hne)]
    have := uncheck_children_get? f j
    rw [List.get?_eq_getElem?] at this
    rw [this, List.get?_eq_getElem?]
    simp [hne]

end UsdbSyncer

namespace UsdbSyncer

/-- The invariant holds unconditionally after `uncheck_children`. -/
lemma inv_uncheck (f : FilterItem) : Inv f.uncheck_children := by
  refine ⟨by simp [FilterItem.uncheck_children], by simp [FilterItem.uncheck_children],
    rfl, ?_, by simp [FilterItem.uncheck_children]⟩
  intro i c hc
  rw [Option.mem_def, uncheck_children_get?] at hc
  rcases Option.map_eq_some'.mp hc with ⟨d, hd, rfl⟩
  simp [FilterItem.uncheck_children]

/-- A successful `check_child` establishes the invariant and certifies that the
index was in bounds. -/
lemma inv_check_child (f f' : FilterItem) (i : Nat) (h : f.check_child i = some f') :
    Inv f' ∧ i < f.children.length := by
  have hi : i < f.children.length := by
    by_contra hno
    unfold FilterItem.check_child at h
    rw [dif_neg (by simpa [uncheck_children_length] using hno)] at h
    exact Option.noConfusion h
  rcases check_child_spec f i hi with ⟨f'', heq, hdata, hset, hch, hcb, hlen, hget⟩
  rw [heq] at h
  injection h with h
  subst h
  refine ⟨⟨?_, ?_, ?_, ?_, ?_⟩, hi⟩
  · simp [hset]
  · simp [hch, hset]
  · rw [hcb, hch]
  · intro j c hc
    rw [Option.mem_def, hget j] at hc
    rcases Option.map_eq_some'.mp hc with ⟨d, hd, rfl⟩
    simp [hset]
  · intro j hj
    rw [hset] at hj
    simp only [Finset.mem_singleton] at hj
    subst hj
    rw [hlen]
    exact hi

/-- The filter-level toggle preserves the invariant. -/
lemma inv_toggle_checked (f : FilterItem) (hInv : Inv f) : Inv f.toggle_checked := by
  unfold FilterItem.toggle_checked
  split
  · exact inv_uncheck f
  · exact hInv

/-- A successful variant-level toggle establishes the invariant. -/
lemma variant_toggle_inv (f f' : FilterItem) (row : Nat)
    (h : VariantItem.toggle_checked f row = some f') : Inv f' := by
  unfold VariantItem.toggle_checked at h
  cases hc : f.children.get? row with
  | none => rw [hc] at h; exact Option.noConfusion h
  | some c =>
      rw [hc] at h
      dsimp only at h
      by_cases hcchk : c.checked
      · rw [if_pos hcchk] at h
        injection h with h
        subst h
        exact inv_uncheck f
      · rw [if_neg hcchk] at h
        exact (inv_check_child f f' row h).1

/-- A successful single toggle preserves the invariant. -/
lemma inv_applyOp (f f' : FilterItem) (op : Op) (hInv : Inv f) (h : applyOp f op = some f') :
    Inv f' := by
  cases op with
  | filter =>
      injection h with h
      subst h
      exact inv_toggle_checked f hInv
  | variant row => exact variant_toggle_inv f f' row h

/-- A successful sequence of toggles preserves the invariant. -/
lemma inv_runOps (f f' : FilterItem) (ops : List Op) (hInv : Inv f)
    (h : runOps f ops = some f') : Inv f' := by
  induction ops generalizing f with
  | nil =>
      injection h with h
      subst h
      exact hInv
  | cons op ops ih =>
      unfold runOps at h
      cases happ : applyOp f op with
      | none => rw [happ] at h; exact Option.noConfusion h
      | some f1 =>
          rw [happ] at h
          exact ih f1 (inv_applyOp f f1 op hInv happ) h

/-- A freshly built filter row satisfies the invariant. -/
lemma inv_buildFilter (kind : Filter) (ms : List SongMatch) : Inv (buildFilter kind ms) := by
  rw [buildFilter_eq]
  refine ⟨by simp, by simp, rfl, ?_, by simp⟩
  intro i c hc
  rw [Option.mem_def, List.get?_eq_getElem?, List.getElem?_map] at hc
  rcases Option.map_eq_some'.mp hc with ⟨m, hm, rfl⟩
  simp

/-- Every reachable filter-row state satisfies the invariant. -/
lemma inv_reachable (f : FilterItem) (h : Reachable f) : Inv f := by
  rcases h with ⟨kind, ms, ops, hrun⟩
  exact inv_runOps (buildFilter kind ms) f ops (inv_buildFilter kind ms) hrun

end UsdbSyncer

namespace UsdbSyncer

/-- Toggling an unchecked variant goes through `check_child` and so makes that
variant the sole checked one. -/
lemma variant_toggle_unchecked (f : FilterItem) (i : Nat) (c : VariantItem)
    (hc : f.children.get? i = some c) (hunch : c.checked = false) :
    ∃ f1, VariantItem.toggle_checked f i = some f1 ∧
      f1.data = f.data ∧
      f1.checked_children = {i} ∧ f1.checked = true ∧ f1.checkable = true ∧
      f1.children.length = f.children.length ∧
      ∀ j, f1.children.get? j =
        (f.children.get? j).map fun d => { d with checked := decide (j = i) } := by
  have hi : i < f.children.length := by
    rw [List.get?_eq_getElem?] at hc
    exact (List.getElem?_eq_some.mp hc).1
  have htog : VariantItem.toggle_checked f i = f.check_child i := by
    unfold VariantItem.toggle_checked
    rw [hc]
    dsimp only
    rw [if_neg (by simp [hunch])]
  rcases check_child_spec f i hi with ⟨f1, heq, hdata, hset, hch, hcb, hlen, hget⟩
  exact ⟨f1, by rw [htog, heq], hdata, hset, hch, hcb, hlen, hget⟩

/-- When each child is the old child with `checked` recording equality with a
chosen index, a child's flag is set exactly at that index. -/
lemma checked_pattern (f f1 : FilterItem) (i : Nat)
    (hget : ∀ j, f1.children.get? j =
      (f.children.get? j).map fun d => { d with checked := decide (j = i) }) :
    ∀ j d, f1.children.get? j = some d → (d.checked = true ↔ j = i) := by
  intro j d hd
  rw [hget j] at hd
  rcases Option.map_eq_some'.mp hd with ⟨d0, hd0, rfl⟩
  simp

end UsdbSyncer

namespace UsdbSyncer

/-- C3: toggling a currently unchecked variant row constrains its parent on
that row alone: the set of checked children becomes exactly that row, the
filter's checked and checkable flags and the variant's checked flag become
true, every sibling is unchecked; and checking row i and then a different row
j leaves exactly j checked and i unchecked. -/
theorem C3_check_replaces (f : FilterItem) (i : Nat) (c : VariantItem)
    (hc : f.children.get? i = some c) (hunch : c.checked = false) :
    ∃ f1, VariantItem.toggle_checked f i = some f1 ∧
      f1.checked_children = {i} ∧ f1.checked = true ∧ f1.checkable = true ∧
      (∀ j d, f1.children.get? j = some d → (d.checked = true ↔ j = i)) ∧
      ∀ j, j ≠ i → j < f.children.length →
        ∃ f2, VariantItem.toggle_checked f1 j = some f2 ∧
          f2.checked_children = {j} ∧
          ∀ k d, f2.children.get? k = some d → (d.checked = true ↔ k = j) := by
  rcases variant_toggle_unchecked f i c hc hunch with
    ⟨f1, htog, hdata, hset, hch, hcb, hlen, hget⟩
  refine ⟨f1, htog, hset, hch, hcb, checked_pattern f f1 i hget, ?_⟩
  intro j hne hj
  have hj1 : f.children.get? j = some (f.children.get ⟨j, hj⟩) := by
    rw [List.get?_eq_getElem?]
    exact List.getElem?_eq_getElem hj
  have hcj : f1.children.get? j =
      some { f.children.get ⟨j, hj⟩ with checked := decide (j = i) } := by
    rw [hget j, hj1]
    rfl
  have hdec : decide (j = i) = false := by simp [hne]
  rw [hdec] at hcj
  rcases variant_toggle_unchecked f1 j _ hcj rfl with
    ⟨f2, htog2, hdata2, hset2, hch2, hcb2, hlen2, hget2⟩
  exact ⟨f2, htog2, hset2, checked_pattern f1 f2 j hget2⟩

/-- C4: checking variant i and then toggling variant i again returns the
filter row to the unconstrained state: empty set, both filter flags false and
every variant row unchecked. -/
theorem C4_retoggle_clears (f : FilterItem) (i : Nat) (c : VariantItem)
    (hc : f.children.get? i = some c) (hunch : c.checked = false) :
    ∃ f1 f2, VariantItem.toggle_checked f i = some f1 ∧
      VariantItem.toggle_checked f1 i = some f2 ∧
      f2.checked_children = ∅ ∧ f2.checked = false ∧ f2.checkable = false ∧
      ∀ j d, f2.children.get? j = some d → d.checked = false := by
  rcases variant_toggle_unchecked f i c hc hunch with
    ⟨f1, htog, hdata, hset, hch, hcb, hlen, hget⟩
  have hci : f1.children.get? i = some { c with checked := true } := by
    rw [hget i, hc]
    simp
  have htog2 : VariantItem.toggle_checked f1 i = some f1.uncheck_children := by
    unfold VariantItem.toggle_checked
    rw [hci]
    simp
  refine ⟨f1, f1.uncheck_children, htog, htog2, rfl, rfl, rfl, ?_⟩
  intro j d hd
  rw [uncheck_children_get?] at hd
  rcases Option.map_eq_some'.mp hd with ⟨d0, hd0, rfl⟩
  rfl

/-- C5: on an invariant-satisfying filter row, the filter-level toggle of a
constrained row unconstrains it exactly as unchecking the sole checked variant
would, clearing all child flags, the set and both filter flags; the toggle of
an already unconstrained row changes nothing. -/
theorem C5_filter_toggle (f : FilterItem) (hInv : Inv f) :
    (f.checked_children ≠ ∅ →
      f.toggle_checked = f.uncheck_children ∧
      (∀ i ∈ f.checked_children, VariantItem.toggle_checked f i = some f.toggle_checked) ∧
      f.toggle_checked.checked_children = ∅ ∧
      f.toggle_checked.checked = false ∧ f.toggle_checked.checkable = false ∧
      (∀ j d, f.toggle_checked.children.get? j = some d → d.checked = false)) ∧
    (f.checked_children = ∅ → f.toggle_checked = f) := by
  rcases hInv with ⟨hcard, hiff, hcb, hchild, hmem⟩
  constructor
  · intro hne
    have hch : f.checked = true := hiff.mpr hne
    have htog : f.toggle_checked = f.uncheck_children := by
      unfold FilterItem.toggle_checked
      rw [if_pos hch]
    refine ⟨htog, ?_, by rw [htog]; rfl, by rw [htog]; rfl, by rw [htog]; rfl, ?_⟩
    · intro i hi
      have hilt : i < f.children.length := hmem i hi
      have hgi : f.children.get? i = some (f.children.get ⟨i, hilt⟩) := by
        rw [List.get?_eq_getElem?]
        exact List.getElem?_eq_getElem hilt
      have hchecked : (f.children.get ⟨i, hilt⟩).checked = true :=
        (hchild i _ (Option.mem_def.mpr hgi)).mpr hi
      unfold VariantItem.toggle_checked
      rw [hgi]
      dsimp only
      rw [if_pos hchecked, htog]
    · intro j d hd
      rw [htog, uncheck_children_get?] at hd
      rcases Option.map_eq_some'.mp hd with ⟨d0, hd0, rfl⟩
      rfl
  · intro hemp
    have hch : f.checked = false := by
      rcases Bool.eq_false_or_eq_true f.checked with h | h
      · exact absurd hemp (hiff.mp h)
      · exact h
    unfold FilterItem.toggle_checked
    rw [hch]
    simp

end UsdbSyncer

namespace UsdbSyncer

/-- C2: starting from a freshly built filter row and applying any sequence of
toggle calls, the set of checked children has at most one element, the filter's
checked and checkable flags are true exactly when that set is non-empty, and a
variant row's checked flag is true exactly when its row is a member of the
set. -/
theorem C2_toggle_invariants (f : FilterItem) (h : Reachable f) :
    f.checked_children.card ≤ 1 ∧
    (f.checked = true ↔ f.checked_children ≠ ∅) ∧
    (f.checkable = true ↔ f.checked_children ≠ ∅) ∧
    ∀ i : Nat, ∀ c ∈ f.children.get? i, (c.checked = true ↔ i ∈ f.checked_children) := by
  rcases inv_reachable f h with ⟨h1, h2, h3, h4, h5⟩
  exact ⟨h1, h2, by rw [h3]; exact h2, h4⟩

/-- C6: a views variant with bucket value `(lo, hi)` matches a song exactly
when `lo ≤ views` and `hi` is unbounded or `views < hi`; a song with 100 views
matches the 100-200 bucket and not the 0-100 bucket, and a song with 999 views
matches exactly the unbounded 500-plus bucket. -/
theorem C6_views_semantics (v : ViewsVariant) (song : SongData) :
    (v.matches_song song = true ↔
      (v.value.1 ≤ song.data.views ∧
        (v.value.2 = none ∨ ∃ hi, v.value.2 = some hi ∧ song.data.views < hi))) ∧
    ViewsVariant.V_100.matches_song (viewsSong 100) = true ∧
    ViewsVariant.V_0.matches_song (viewsSong 100) = false ∧
    ∀ w : ViewsVariant, w.matches_song (viewsSong 999) = true ↔ w = ViewsVariant.V_500 := by
  refine ⟨?_, by decide, by decide, by intro w; cases w <;> decide⟩
  cases v <;> simp [ViewsVariant.matches_song, ViewsVariant.value]

/-- C10: for every song, exactly one of the six views buckets matches it: the
buckets are pairwise disjoint and jointly cover the non-negative integers. -/
theorem C10_views_partition (song : SongData) :
    ∃! v : ViewsVariant, v.matches_song song = true := by
  by_cases h0 : song.data.views < 100
  · exact ⟨.V_0, by simp [ViewsVariant.matches_song, ViewsVariant.value]; omega,
      by intro w hw; cases w <;>
        simp [ViewsVariant.matches_song, ViewsVariant.value] at hw ⊢ <;> omega⟩
  by_cases h1 : song.data.views < 200
  · exact ⟨.V_100, by simp [ViewsVariant.matches_song, ViewsVariant.value]; omega,
      by intro w hw; cases w <;>
        simp [ViewsVariant.matches_song, ViewsVariant.value] at hw ⊢ <;> omega⟩
  by_cases h2 : song.data.views < 300
  · exact ⟨.V_200, by simp [ViewsVariant.matches_song, ViewsVariant.value]; omega,
      by intro w hw; cases w <;>
        simp [ViewsVariant.matches_song, ViewsVariant.value] at hw ⊢ <;> omega⟩
  by_cases h3 : song.data.views < 400
  · exact ⟨.V_300, by simp [ViewsVariant.matches_song, ViewsVariant.value]; omega,
      by intro w hw; cases w <;>
        simp [ViewsVariant.matches_song, ViewsVariant.value] at hw ⊢ <;> omega⟩
  by_cases h4 : song.data.views < 500
  · exact ⟨.V_400, by simp [ViewsVariant.matches_song, ViewsVariant.value]; omega,
      by intro w hw; cases w <;>
        simp [ViewsVariant.matches_song, ViewsVariant.value] at hw ⊢ <;> omega⟩
  · exact ⟨.V_500, by simp [ViewsVariant.matches_song, ViewsVariant.value]; omega,
      by intro w hw; cases w <;>
        simp [ViewsVariant.matches_song, ViewsVariant.value] at hw ⊢ <;> omega⟩

/-- C1 fails on the code: the stored value of the `None` rating variant is the
Python `None`, not the integer 0, and song ratings are integers, so the `None`
variant matches no song at all; in particular it does not match a song whose
rating field is 0, though the numbered variants do match by equality of level
and rating. -/
theorem C1_rating_none_never_matches :
    (ratingSong 0).data.rating = 0 ∧
    RatingVariant.matches_song RatingVariant.R_NONE (ratingSong 0) = false ∧
    (∀ song : SongData, RatingVariant.matches_song RatingVariant.R_NONE song = false) ∧
    ∀ song : SongData,
      (RatingVariant.matches_song RatingVariant.R_5 song = true ↔ song.data.rating = 5) := by
  refine ⟨rfl, by decide, ?_, ?_⟩
  · intro song
    simp [RatingVariant.matches_song, RatingVariant.value]
  · intro song
    simp [RatingVariant.matches_song, RatingVariant.value, eq_comm]

end UsdbSyncer

namespace UsdbSyncer

/-- The per-index acceptance test agrees with the child's own predicate when a
child is present at the index. -/
lemma child_accepts_eq (f : FilterItem) (song : SongData) (i : Nat) (c : VariantItem)
    (h : f.children.get? i = some c) : f.child_accepts song i = c.accepts_song song := by
  unfold FilterItem.child_accepts
  rw [h]

/-- C7: on a filter row whose checked indices are in bounds, `accepts_song`
answers true exactly when no child is checked or some checked child's predicate
matches the song; and when every filter row of a tree is unconstrained, every
row accepts every song, so the conjunction over the tree is true. -/
theorem C7_accepts_semantics (f : FilterItem) (song : SongData)
    (hb : ∀ i ∈ f.checked_children, i < f.children.length) :
    (f.accepts_song song = some true ↔
      (f.checked_children = ∅ ∨
        ∃ i ∈ f.checked_children, ∃ c,
          f.children.get? i = some c ∧ c.accepts_song song = true)) ∧
    ∀ fs : List FilterItem, (∀ g ∈ fs, g.checked_children = ∅) →
      ∀ t : SongData, ∀ g ∈ fs, g.accepts_song t = some true := by
  constructor
  · unfold FilterItem.accepts_song
    by_cases hemp : f.checked_children = ∅
    · simp [hemp]
    · have hsub : f.checked_children ⊆ Finset.range f.children.length := by
        intro i hi
        rw [Finset.mem_range]
        exact hb i hi
      rw [if_neg hemp, if_pos hsub]
      rw [Option.some_inj, decide_eq_true_iff]
      constructor
      · rintro ⟨i, hi, hacc⟩
        have hilt : i < f.children.length := hb i hi
        have hgi : f.children.get? i = some (f.children.get ⟨i, hilt⟩) := by
          rw [List.get?_eq_getElem?]
          exact List.getElem?_eq_getElem hilt
        rw [child_accepts_eq f song i _ hgi] at hacc
        exact Or.inr ⟨i, hi, _, hgi, hacc⟩
      · rintro (h | ⟨i, hi, c, hgi, hacc⟩)
        · exact absurd h hemp
        · exact ⟨i, hi, by rw [child_accepts_eq f song i c hgi]; exact hacc⟩
  · intro fs hfs t g hg
    unfold FilterItem.accepts_song
    rw [if_pos (hfs g hg)]

/-- A successful toggle changes neither the filter's data, nor the number of
children, nor any child's data or checkable flag. -/
lemma applyOp_frame (f f1 : FilterItem) (op : Op) (h : applyOp f op = some f1) :
    f1.data = f.data ∧ f1.children.length = f.children.length ∧
    ∀ j, (f1.children.get? j).map (fun d => (d.data, d.checkable)) =
         (f.children.get? j).map fun d => (d.data, d.checkable) := by
  have huncheck : ∀ g : FilterItem,
      (g.uncheck_children).data = g.data ∧
      (g.uncheck_children).children.length = g.children.length ∧
      ∀ j, ((g.uncheck_children).children.get? j).map (fun d => (d.data, d.checkable)) =
           (g.children.get? j).map fun d => (d.data, d.checkable) := by
    intro g
    refine ⟨rfl, uncheck_children_length g, ?_⟩
    intro j
    rw [uncheck_children_get?]
    cases g.children.get? j <;> rfl
  cases op with
  | filter =>
      injection h with h
      subst h
      unfold FilterItem.toggle_checked
      by_cases hch : f.checked = true
      · rw [if_pos hch]
        exact huncheck f
      · rw [if_neg hch]
        exact ⟨rfl, rfl, fun j => rfl⟩
  | variant row =>
      unfold applyOp VariantItem.toggle_checked at h
      dsimp only at h
      cases hc : f.children.get? row with
      | none => rw [hc] at h; exact Option.noConfusion h
      | some c =>
          rw [hc] at h
          dsimp only at h
          by_cases hcchk : c.checked = true
          · rw [if_pos hcchk] at h
            injection h with h
            subst h
            exact huncheck f
          · rw [if_neg hcchk] at h
            have hrow : row < f.children.length := by
              rw [List.get?_eq_getElem?] at hc
              exact (List.getElem?_eq_some.mp hc).1
            rcases check_child_spec f row hrow with
              ⟨f2, heq, hdata, hset, hch2, hcb2, hlen, hget⟩
            rw [heq] at h
            injection h with h
            subst h
            refine ⟨hdata, hlen, ?_⟩
            intro j
            rw [hget j]
            cases f.children.get? j <;> rfl

/-- C8: a toggle addressed at one filter row of the tree only rewrites that
row: the list of rows keeps its length, every other row is unchanged, and the
toggled row keeps its data, its number of children and every child's data and
checkable flag; the embedded `accepts_song` is a pure function of the state and
produces no new state at all. -/
theorem C8_frame (root root' : RootItem) (fIdx : Nat) (op : Op)
    (h : treeToggle root fIdx op = some root') :
    root'.children.length = root.children.length ∧
    (∀ g, g ≠ fIdx → root'.children.get? g = root.children.get? g) ∧
    ∃ f f1, root.children.get? fIdx = some f ∧ root'.children.get? fIdx = some f1 ∧
      applyOp f op = some f1 ∧
      f1.data = f.data ∧ f1.children.length = f.children.length ∧
      ∀ j, (f1.children.get? j).map (fun d => (d.data, d.checkable)) =
           (f.children.get? j).map fun d => (d.data, d.checkable) := by
  unfold treeToggle at h
  cases hf : root.children.get? fIdx with
  | none => rw [hf] at h; exact Option.noConfusion h
  | some f =>
      rw [hf] at h
      dsimp only at h
      cases happ : applyOp f op with
      | none => rw [happ] at h; exact Option.noConfusion h
      | some f1 =>
          rw [happ] at h
          dsimp only [Option.map] at h
          injection h with h
          subst h
          have hflt : fIdx < root.children.length := by
            rw [List.get?_eq_getElem?] at hf
            exact (List.getElem?_eq_some.mp hf).1
          rcases applyOp_frame f f1 op happ with ⟨hd, hl, hj⟩
          refine ⟨by simp, ?_, f, f1, rfl, ?_, happ, hd, hl, hj⟩
          · intro g hg
            show (root.children.set fIdx f1).get? g = root.children.get? g
            rw [List.get?_eq_getElem?, List.get?_eq_getElem?]
            exact List.getElem?_set_ne (Ne.symm hg)
          · show (root.children.set fIdx f1).get? fIdx = some f1
            rw [List.get?_eq_getElem?]
            exact List.getElem?_set_self hflt

/-- C9: on every reachable filter-row state, the checked indices are in bounds
and the operations are total: `accepts_song` answers, toggling any existing
variant row succeeds, `check_child` succeeds on any in-bounds index, the
filter-level toggle always answers, and every predicate answers true or false
on every song. -/
theorem C9_totality (f : FilterItem) (h : Reachable f) :
    (∀ song, ∃ b, f.accepts_song song = some b) ∧
    (∀ i ∈ f.checked_children, i < f.children.length) ∧
    (∀ i, i < f.children.length → ∃ f1, VariantItem.toggle_checked f i = some f1) ∧
    (∀ i, i < f.children.length → ∃ f1, f.check_child i = some f1) ∧
    (∀ g : FilterItem, ∃ g1, g.toggle_checked = g1) ∧
    ∀ m : SongMatch, ∀ song, m.matches_song song = true ∨ m.matches_song song = false := by
  rcases inv_reachable f h with ⟨hcard, hiff, hcb, hchild, hmem⟩
  refine ⟨?_, hmem, ?_, ?_, fun g => ⟨g.toggle_checked, rfl⟩, ?_⟩
  · intro song
    unfold FilterItem.accepts_song
    by_cases hemp : f.checked_children = ∅
    · exact ⟨true, by rw [if_pos hemp]⟩
    · have hsub : f.checked_children ⊆ Finset.range f.children.length := by
        intro i hi
        rw [Finset.mem_range]
        exact hmem i hi
      exact ⟨_, by rw [if_neg hemp, if_pos hsub]⟩
  · intro i hi
    have hgi : f.children.get? i = some (f.children.get ⟨i, hi⟩) := by
      rw [List.get?_eq_getElem?]
      exact List.getElem?_eq_getElem hi
    unfold VariantItem.toggle_checked
    rw [hgi]
    dsimp only
    by_cases hck : (f.children.get ⟨i, hi⟩).checked = true
    · exact ⟨f.uncheck_children, by rw [if_pos hck]⟩
    · rw [if_neg hck]
      rcases check_child_spec f i hi with ⟨f1, heq, _⟩
      exact ⟨f1, heq⟩
  · intro i hi
    rcases check_child_spec f i hi with ⟨f1, heq, _⟩
    exact ⟨f1, heq⟩
  · intro m song
    rcases Bool.eq_false_or_eq_true (m.matches_song song) with hm | hm
    · exact Or.inl hm
    · exact Or.inr hm

end UsdbSyncer


namespace UsdbSyncer

/-- Witness for C2 at the concrete freshly built sample filter. -/
theorem C2_toggle_invariants_witness :
    Reachable sampleFilter ∧
    (sampleFilter.checked_children.card ≤ 1 ∧
     (sampleFilter.checked = true ↔ sampleFilter.checked_children ≠ ∅) ∧
     (sampleFilter.checkable = true ↔ sampleFilter.checked_children ≠ ∅) ∧
     ∀ i : Nat, ∀ c ∈ sampleFilter.children.get? i,
       (c.checked = true ↔ i ∈ sampleFilter.checked_children)) :=
  ⟨⟨Filter.RATING,
    [SongMatch.rating RatingVariant.R_1, SongMatch.rating RatingVariant.R_2], [], rfl⟩,
   C2_toggle_invariants sampleFilter
    ⟨Filter.RATING,
     [SongMatch.rating RatingVariant.R_1, SongMatch.rating RatingVariant.R_2], [], rfl⟩⟩

/-- Witness for C3 at the concrete sample filter and its first variant. -/
theorem C3_check_replaces_witness :
    sampleFilter.children.get? 0 =
      some ⟨SongMatch.rating RatingVariant.R_1, false, true⟩ ∧
    (⟨SongMatch.rating RatingVariant.R_1, false, true⟩ : VariantItem).checked = false ∧
    ∃ f1, VariantItem.toggle_checked sampleFilter 0 = some f1 ∧
      f1.checked_children = {0} ∧ f1.checked = true ∧ f1.checkable = true ∧
      (∀ j d, f1.children.get? j = some d → (d.checked = true ↔ j = 0)) ∧
      ∀ j, j ≠ 0 → j < sampleFilter.children.length →
        ∃ f2, VariantItem.toggle_checked f1 j = some f2 ∧
          f2.checked_children = {j} ∧
          ∀ k d, f2.children.get? k = some d → (d.checked = true ↔ k = j) :=
  ⟨by decide, rfl,
   C3_check_replaces sampleFilter 0 ⟨SongMatch.rating RatingVariant.R_1, false, true⟩
     (by decide) rfl⟩

/-- Witness for C4 at the concrete sample filter and its first variant. -/
theorem C4_retoggle_clears_witness :
    sampleFilter.children.get? 0 =
      some ⟨SongMatch.rating RatingVariant.R_1, false, true⟩ ∧
    (⟨SongMatch.rating RatingVariant.R_1, false, true⟩ : VariantItem).checked = false ∧
    ∃ f1 f2, VariantItem.toggle_checked sampleFilter 0 = some f1 ∧
      VariantItem.toggle_checked f1 0 = some f2 ∧
      f2.checked_children = ∅ ∧ f2.checked = false ∧ f2.checkable = false ∧
      ∀ j d, f2.children.get? j = some d → d.checked = false :=
  ⟨by decide, rfl,
   C4_retoggle_clears sampleFilter 0 ⟨SongMatch.rating RatingVariant.R_1, false, true⟩
     (by decide) rfl⟩

/-- Witness for C5 at the concrete sample filter with its first variant
checked. -/
theorem C5_filter_toggle_witness :
    Inv sampleChecked ∧
    ((sampleChecked.checked_children ≠ ∅ →
      sampleChecked.toggle_checked = sampleChecked.uncheck_children ∧
      (∀ i ∈ sampleChecked.checked_children,
        VariantItem.toggle_checked sampleChecked i = some sampleChecked.toggle_checked) ∧
      sampleChecked.toggle_checked.checked_children = ∅ ∧
      sampleChecked.toggle_checked.checked = false ∧
      sampleChecked.toggle_checked.checkable = false ∧
      (∀ j d, sampleChecked.toggle_checked.children.get? j = some d → d.checked = false)) ∧
     (sampleChecked.checked_children = ∅ → sampleChecked.toggle_checked = sampleChecked)) :=
  have hr : Reachable sampleChecked :=
    ⟨Filter.RATING,
     [SongMatch.rating RatingVariant.R_1, SongMatch.rating RatingVariant.R_2],
     [Op.variant 0], by decide⟩
  ⟨inv_reachable sampleChecked hr,
   C5_filter_toggle sampleChecked (inv_reachable sampleChecked hr)⟩

/-- Witness for C7 at the concrete constrained sample filter. -/
theorem C7_accepts_semantics_witness :
    (∀ i ∈ sampleChecked.checked_children, i < sampleChecked.children.length) ∧
    ((sampleChecked.accepts_song (ratingSong 1) = some true ↔
      (sampleChecked.checked_children = ∅ ∨
        ∃ i ∈ sampleChecked.checked_children, ∃ c,
          sampleChecked.children.get? i = some c ∧
            c.accepts_song (ratingSong 1) = true)) ∧
     ∀ fs : List FilterItem, (∀ g ∈ fs, g.checked_children = ∅) →
       ∀ t : SongData, ∀ g ∈ fs, g.accepts_song t = some true) :=
  ⟨by decide, C7_accepts_semantics sampleChecked (ratingSong 1) (by decide)⟩

/-- Witness for C8 toggling the first variant of a one-filter tree. -/
theorem C8_frame_witness :
    treeToggle ⟨[sampleFilter]⟩ 0 (Op.variant 0) = some ⟨[sampleChecked]⟩ ∧
    ((⟨[sampleChecked]⟩ : RootItem).children.length =
      (⟨[sampleFilter]⟩ : RootItem).children.length ∧
     (∀ g, g ≠ 0 → (⟨[sampleChecked]⟩ : RootItem).children.get? g =
       (⟨[sampleFilter]⟩ : RootItem).children.get? g) ∧
     ∃ f f1, (⟨[sampleFilter]⟩ : RootItem).children.get? 0 = some f ∧
       (⟨[sampleChecked]⟩ : RootItem).children.get? 0 = some f1 ∧
       applyOp f (Op.variant 0) = some f1 ∧
       f1.data = f.data ∧ f1.children.length = f.children.length ∧
       ∀ j, (f1.children.get? j).map (fun d => (d.data, d.checkable)) =
            (f.children.get? j).map fun d => (d.data, d.checkable)) :=
  ⟨by decide, C8_frame ⟨[sampleFilter]⟩ ⟨[sampleChecked]⟩ 0 (Op.variant 0) (by decide)⟩

/-- Witness for C9 at the concrete constrained sample filter. -/
theorem C9_totality_witness :
    Reachable sampleChecked ∧
    ((∀ song, ∃ b, sampleChecked.accepts_song song = some b) ∧
     (∀ i ∈ sampleChecked.checked_children, i < sampleChecked.children.length) ∧
     (∀ i, i < sampleChecked.children.length →
       ∃ f1, VariantItem.toggle_checked sampleChecked i = some f1) ∧
     (∀ i, i < sampleChecked.children.length → ∃ f1, sampleChecked.check_child i = some f1) ∧
     (∀ g : FilterItem, ∃ g1, g.toggle_checked = g1) ∧
     ∀ m : SongMatch, ∀ song, m.matches_song song = true ∨ m.matches_song song = false) :=
  have hr : Reachable sampleChecked :=
    ⟨Filter.RATING,
     [SongMatch.rating RatingVariant.R_1, SongMatch.rating RatingVariant.R_2],
     [Op.variant 0], by decide⟩
  ⟨hr, C9_totality sampleChecked hr⟩

end UsdbSyncer
